import Mathlib

/-!
Verification of the MailoBot front end (HICODE_Start repository).

This file gives a shallow embedding, in Lean, of the client-side logic of the
repository — the Dexie-backed local store (`db.js`, the deduplicating variant),
the email background service (`email-service.js`), the Rasa relay
(`rasa-service.js`) and the chat UI controllers (`app.js` and the DOM part of
`rasa-service.js`) — and proves properties of that embedding.

Modelling conventions:
- JavaScript objects become Lean structures; a field that the code tests for
  truthiness before using is embedded as `Option` (absent = `none`), and the
  JS `x || d` default on strings is `jsStrOr` below (the empty string is falsy).
- The Dexie tables become lists of records together with an auto-increment
  counter; `add`, `put`, `update`, `bulkDelete` and `where(...).first()` are
  embedded as the corresponding pure list operations.
- Promise-returning functions become pure state-passing functions; a rejected
  network call becomes an `Except.error` argument.
- The JS fields named `from` and `to` are embedded as `fromAddr` and `toAddr`
  because `from` and `to` are reserved in Lean.
-/

namespace MailoBot

/-- JS `x || d` on an optional string: the empty string counts as falsy,
exactly like in JavaScript. -/
def jsStrOr (o : Option String) (d : String) : String :=
  match o with
  | none => d
  | some s => if s = "" then d else s

/-- JS `s.trim()`: strip leading and trailing whitespace. Embedded over the
character list so that it evaluates by kernel reduction. -/
def jsTrim (s : String) : String :=
  String.mk (((s.data.dropWhile Char.isWhitespace).reverse.dropWhile
    Char.isWhitespace).reverse)

/-! ## Local store (`db.js`, the deduplicating variant: src/unnamed/part_002)

Schema: `emails: '++id, messageId, from, to, subject, body, timestamp, read,
folder, attachments'` — auto-increment primary key `id`, plain (non-unique)
index on `messageId`. -/

/-- A stored email record of the `emails` table. -/
structure Email where
  id : Nat
  messageId : Option String
  fromAddr : String
  toAddr : String
  subject : String
  body : String
  timestamp : String
  read : Bool
  folder : String
  attachments : List String
  has_attachments : Bool
  deriving DecidableEq, Repr

/-- The data passed to `saveEmail` (no `id` yet; `messageId` and `timestamp`
may be absent, which the code tests for). -/
structure EmailData where
  messageId : Option String
  fromAddr : String
  toAddr : String
  subject : String
  body : String
  timestamp : Option String
  read : Bool
  folder : String
  attachments : List String
  has_attachments : Bool
  deriving DecidableEq, Repr

/-- The `emails` Dexie table: the stored records plus the auto-increment
counter for the `++id` primary key. -/
structure EmailStore where
  entries : List Email
  nextId : Nat
  deriving DecidableEq, Repr

/-- JS truthiness of `emailData.messageId` (line 121 of part_002):
present and non-empty. -/
def truthyMsgId : Option String → Bool
  | none => false
  | some s => !(s = "")

/-- The object spread `{...existingEmail, ...emailData, id: existingEmail.id}`
(part_002 lines 130-134): every field present in `emailData` overrides the
existing record, the `id` is kept. -/
def mergeEmail (ex : Email) (d : EmailData) : Email :=
  { id := ex.id
    messageId := match d.messageId with | none => ex.messageId | some s => some s
    fromAddr := d.fromAddr
    toAddr := d.toAddr
    subject := d.subject
    body := d.body
    timestamp := match d.timestamp with | none => ex.timestamp | some t => t
    read := d.read
    folder := d.folder
    attachments := d.attachments
    has_attachments := d.has_attachments }

/-- The `existingEmail` lookup of `saveEmail` (part_002 lines 119-126):
only performed when `emailData.messageId` is truthy; Dexie
`where('messageId').equals(...).first()` is the first list entry with that
message id. -/
def saveEmailExisting (d : EmailData) (st : EmailStore) : Option Email :=
  if truthyMsgId d.messageId then
    st.entries.find? (fun e => e.messageId == d.messageId)
  else none

/-- `saveEmail` of part_002 (lines 116-152): if a record with the same truthy
`messageId` already exists, update that record in place keeping its `id`
(`db.emails.update(existingEmail.id, updatedEmail)`); otherwise `add` a new
record with `timestamp: emailData.timestamp || <now>`. Returns the id of the
saved record together with the new store. -/
def saveEmail (now : String) (d : EmailData) (st : EmailStore) : Nat × EmailStore :=
  match saveEmailExisting d st with
  | some ex =>
      (ex.id,
       { st with entries :=
           st.entries.map (fun e => if e.id = ex.id then mergeEmail ex d else e) })
  | none =>
      (st.nextId,
       { entries := st.entries ++
           [{ id := st.nextId
              messageId := d.messageId
              fromAddr := d.fromAddr
              toAddr := d.toAddr
              subject := d.subject
              body := d.body
              timestamp := jsStrOr d.timestamp now
              read := d.read
              folder := d.folder
              attachments := d.attachments
              has_attachments := d.has_attachments }]
         nextId := st.nextId + 1 })

/-- `markEmailAsRead` of part_002 (lines 189-198):
`db.emails.update(emailId, { read: true })` — the record with primary key
`emailId`, when present, gets `read := true`; otherwise the store is
unchanged (Dexie `update` on a missing key is a no-op, not an error). -/
def markEmailAsRead (i : Nat) (st : EmailStore) : EmailStore :=
  { st with entries :=
      st.entries.map (fun e => if e.id = i then { e with read := true } else e) }

/-! ## IMAP settings (`db.js` part_002, lines 52-66 and 102-109)

Schema: `imapSettings: 'id, host, port, username, password, tls'` — an
explicit (non-auto-increment) primary key `id`. -/

/-- A record of the `imapSettings` table. -/
structure ImapSettings where
  id : Nat
  host : String
  port : Nat
  username : String
  password : String
  tls : Bool
  deriving DecidableEq, Repr

/-- Dexie `put` on a table with explicit primary key `id`: replace the record
with the same key when present, insert otherwise. -/
def putSettings (v : ImapSettings) (tbl : List ImapSettings) : List ImapSettings :=
  if tbl.any (fun e => e.id == v.id) then
    tbl.map (fun e => if e.id = v.id then v else e)
  else
    tbl ++ [v]

/-- `saveImapSettings` (part_002 lines 52-66), database part: the code forces
`settings.id = 1` and then `db.imapSettings.put(settings)`. (The subsequent
POST of the settings to `/api/save_imap_settings` is a server side effect
that does not touch the table.) -/
def saveImapSettings (s : ImapSettings) (tbl : List ImapSettings) : List ImapSettings :=
  putSettings { s with id := 1 } tbl

/-- `getImapSettings` (part_002 lines 102-109): `db.imapSettings.get(1)`. -/
def getImapSettings (tbl : List ImapSettings) : Option ImapSettings :=
  tbl.find? (fun e => e.id == 1)

/-! ## Email service (`email-service.js`)

The file defines the `EmailService` class twice; both IIFEs assign
`window.emailService`, so the second definition (lines 794 onward) is the one
the application uses. -/

/-- An email as delivered by the MCP mail-check response, before
normalization: every field may be absent. -/
structure MCPEmail where
  id : Option String
  message_id : Option String
  messageId : Option String
  fromAddr : Option String
  toAddr : Option String
  subject : Option String
  body : Option String
  content : Option String
  date : Option String
  recipients : Option (List String)
  read : Option Bool
  folder : Option String
  attachments : Option (List String)
  has_attachments : Option Bool
  deriving DecidableEq, Repr

/-- The normalized email object returned by `formatMCPEmail`. -/
structure FormattedEmail where
  messageId : String
  fromAddr : String
  toAddr : String
  subject : String
  body : String
  timestamp : String
  read : Bool
  folder : String
  attachments : List String
  has_attachments : Bool
  deriving DecidableEq, Repr

/-- `formatMCPEmail` (email-service.js lines 612-651 of the first definition,
identical in the second): normalizes an MCP email into the application format.
`parseIsoDate` embeds `new Date(d).toISOString()` (`none` = the parse threw,
caught by the try/catch); `now` embeds `new Date().toISOString()` and
`Date.now()`; `currentFolder` is `this.currentFolder`. -/
def formatMCPEmail (parseIsoDate : String → Option String) (now : String)
    (currentFolder : String) (m : MCPEmail) : FormattedEmail :=
  let timestamp :=
    match m.date with
    | none => now
    | some d => if d = "" then now else (parseIsoDate d).getD now
  let messageId :=
    jsStrOr m.id (jsStrOr m.message_id (jsStrOr m.messageId ("msg_" ++ now)))
  let toA :=
    let t := jsStrOr m.toAddr ""
    if t = "" then
      match m.recipients with
      | some rs => String.intercalate ", " rs
      | none => ""
    else t
  { messageId := messageId
    fromAddr := jsStrOr m.fromAddr "unknown@example.com"
    toAddr := toA
    subject := jsStrOr m.subject "(No subject)"
    body := jsStrOr m.body (jsStrOr m.content "")
    timestamp := timestamp
    read := m.read.getD false
    folder := jsStrOr m.folder currentFolder
    attachments := m.attachments.getD []
    has_attachments := m.has_attachments.getD false }

/-- `saveAndNotifyEmail` (email-service.js lines 477-507), database part:
the email has no `id` yet, so `email.messageId = email.messageId || msg_<now>`
applies; the `completeEmail` defaults `timestamp`, `read` and `folder`; the
record is then saved through `window.mailoDB.saveEmail` (the part_002
`saveEmail` above). The callback notification does not touch the store. -/
def saveAndNotifyEmail (now : String) (e : FormattedEmail) (st : EmailStore) :
    Nat × EmailStore :=
  let msgId := if e.messageId = "" then "msg_" ++ now else e.messageId
  let complete : EmailData :=
    { messageId := some msgId
      fromAddr := e.fromAddr
      toAddr := e.toAddr
      subject := e.subject
      body := e.body
      timestamp := some (if e.timestamp = "" then now else e.timestamp)
      read := e.read
      folder := if e.folder = "" then "inbox" else e.folder
      attachments := e.attachments
      has_attachments := e.has_attachments }
  saveEmail now complete st

/-- The `check_email` branch of `handleRasaAction` (email-service.js lines
890-922 in the effective definition): each email of the mail-check response is
normalized by `formatMCPEmail` and stored via `saveAndNotifyEmail`. -/
def processRecentEmails (parseIsoDate : String → Option String) (now : String)
    (currentFolder : String) (emails : List MCPEmail) (st : EmailStore) : EmailStore :=
  emails.foldl
    (fun acc m =>
      (saveAndNotifyEmail now (formatMCPEmail parseIsoDate now currentFolder m) acc).2)
    st

/-! ## Email service lifecycle (`start`/`stop` and the polling timer)

`setInterval`/`clearInterval` are embedded as a timer world: a list of active
timers, each carrying the operations its callback performs per tick. -/

/-- An operation a poller timer callback can perform. -/
inductive PollerOp where
  | checkEmails
  deriving DecidableEq, Repr

/-- The `isRunning` / `checkInterval` fields of `EmailService`. -/
structure ServiceState where
  isRunning : Bool
  checkInterval : Option Nat
  deriving DecidableEq, Repr

/-- The browser timer table: active interval timers (id, per-tick operations)
and the next timer id. -/
structure TimerWorld where
  activeTimers : List (Nat × List PollerOp)
  nextTimerId : Nat
  deriving DecidableEq, Repr

/-- `setInterval(cb, EMAIL_CHECK_INTERVAL)`: registers a new timer and
returns its id. -/
def setIntervalOp (ops : List PollerOp) (w : TimerWorld) : Nat × TimerWorld :=
  (w.nextTimerId,
   { activeTimers := w.activeTimers ++ [(w.nextTimerId, ops)]
     nextTimerId := w.nextTimerId + 1 })

/-- `clearInterval(this.checkInterval)`: removes the timer with that id
(a no-op when the id is `null` or unknown). -/
def clearIntervalOp (tid : Option Nat) (w : TimerWorld) : TimerWorld :=
  { w with activeTimers := w.activeTimers.filter (fun t => !(some t.1 == tid)) }

/-- What the timer `tid` performs on each firing. -/
def timerTickOps (w : TimerWorld) (tid : Nat) : Option (List PollerOp) :=
  (w.activeTimers.find? (fun t => t.1 == tid)).map (fun t => t.2)

/-- `start()` (identical guard structure in email-service.js lines 194-210 and
1002-1018 and part_004 lines 32-48): when already running, return without any
effect; otherwise set `isRunning`, register the interval timer and remember
its id. `tickOps` is the body of the interval callback of the particular
variant. -/
def startService (tickOps : List PollerOp) (s : ServiceState) (w : TimerWorld) :
    ServiceState × TimerWorld :=
  if s.isRunning then (s, w)
  else
    let tw := setIntervalOp tickOps w
    ({ isRunning := true, checkInterval := some tw.1 }, tw.2)

/-- `stop()` (email-service.js lines 215-223 and 1023-1031, part_004 lines
53-61): when not running, return without any effect; otherwise clear the
interval and reset `isRunning` (the `checkInterval` field itself is not
nulled by the code). -/
def stopService (s : ServiceState) (w : TimerWorld) : ServiceState × TimerWorld :=
  if !s.isRunning then (s, w)
  else ({ s with isRunning := false }, clearIntervalOp s.checkInterval w)

/-- Interval callback of the FIRST `EmailService` definition in
email-service.js (lines 207-209): `() => { this.checkEmails(); }`. -/
def mcpFirstDefTickOps : List PollerOp := [PollerOp.checkEmails]

/-- Interval callback of the SECOND, effective `EmailService` definition in
email-service.js (lines 1015-1017): the `this.checkEmails()` call inside the
callback is commented out, so the callback body performs nothing. -/
def mcpEffectiveTickOps : List PollerOp := []

/-- Interval callback of the legacy service in part_004 (lines 45-47):
`() => { this.checkEmails(); }`. -/
def legacyTickOps : List PollerOp := [PollerOp.checkEmails]

/-- Constructor state of `EmailService`: not running, no interval handle. -/
def initialServiceState : ServiceState :=
  { isRunning := false, checkInterval := none }

/-- A browser with no timers registered yet. -/
def emptyTimerWorld : TimerWorld :=
  { activeTimers := [], nextTimerId := 0 }

/-! ## Rasa relay (`rasa-service.js`, class `RasaService`, lines 82-211)

A JS object carrying the conversation context is embedded as an association
list with first-match lookup; the spread `{...a, ...b}` is `objMerge a b`
below, under which the keys of `b` win. -/

/-- A JS context object, up to key lookup. -/
abbrev Obj : Type := List (String × String)

/-- The object spread `{...a, ...b}`: keys of `b` override keys of `a`
(first-match lookup on the result). -/
def objMerge (a b : Obj) : Obj := b ++ a

/-- A chat segment produced by `processResponse`: either a text message
(`{text}`) or an image message (`{type: 'image', url}`), possibly with a
`buttons` field attached afterwards. -/
inductive RMessage where
  | text (t : String) (buttons : List String)
  | image (url : String) (buttons : List String)
  deriving DecidableEq, Repr

/-- `lastMessage.buttons = item.buttons`: replace the buttons field. -/
def RMessage.withButtons : RMessage → List String → RMessage
  | .text t _, bs => .text t bs
  | .image u _, bs => .image u bs

/-- The parsed `custom` payload of a response item. -/
structure CustomData where
  action : Option String
  context : Option Obj
  deriving DecidableEq, Repr

/-- The `custom` field of a response item: absent, a parsed object (either
given as an object or as a string that `JSON.parse` accepts), or a string
that `JSON.parse` rejects — the thrown error is caught and the item's custom
processing is skipped. -/
inductive CustomField where
  | absent
  | parsed (c : CustomData)
  | malformed
  deriving DecidableEq, Repr

/-- One item of the raw Rasa webhook response array. -/
structure RasaItem where
  text : Option String
  custom : CustomField
  image : Option String
  buttons : List String
  deriving DecidableEq, Repr

/-- The object built by `processResponse`: `messages`, `context`, `actions`,
plus the list of `rasa-custom-action` events dispatched on the way. -/
structure ProcessedResponse where
  messages : List RMessage
  context : Obj
  actions : List String
  dispatched : List (String × Obj)
  deriving DecidableEq, Repr

/-- `if (item.text) result.messages.push({text: item.text})`
(rasa-service.js lines 157-159). -/
def processItemText (acc : ProcessedResponse) (item : RasaItem) : ProcessedResponse :=
  match item.text with
  | some t => if t = "" then acc else { acc with messages := acc.messages ++ [RMessage.text t []] }
  | none => acc

/-- The `item.custom` block (rasa-service.js lines 162-191): a parsed custom
payload with a truthy `action` pushes the action and dispatches a
`rasa-custom-action` event; a `context` in the payload is merged over the
accumulated context. A malformed string payload is caught and skipped. -/
def processItemCustom (acc : ProcessedResponse) (item : RasaItem) : ProcessedResponse :=
  match item.custom with
  | CustomField.parsed c =>
      let acc1 :=
        match c.action with
        | some a =>
            if a = "" then acc
            else { acc with actions := acc.actions ++ [a]
                            dispatched := acc.dispatched ++ [(a, c.context.getD [])] }
        | none => acc
      match c.context with
      | some cctx => { acc1 with context := objMerge acc1.context cctx }
      | none => acc1
  | _ => acc

/-- `if (item.image) result.messages.push({type: 'image', url: item.image})`
(rasa-service.js lines 194-196). -/
def processItemImage (acc : ProcessedResponse) (item : RasaItem) : ProcessedResponse :=
  match item.image with
  | some u => if u = "" then acc else { acc with messages := acc.messages ++ [RMessage.image u []] }
  | none => acc

/-- `messages[len-1] || {text: ''}` gets the buttons; a fresh message is
pushed exactly when the list was empty (rasa-service.js lines 199-207). -/
def attachButtons : List RMessage → List String → List RMessage
  | [], bs => [RMessage.text "" bs]
  | [m], bs => [m.withButtons bs]
  | m :: rest, bs => m :: attachButtons rest bs

/-- `if (item.buttons && item.buttons.length > 0)` block. -/
def processItemButtons (acc : ProcessedResponse) (item : RasaItem) : ProcessedResponse :=
  if item.buttons.isEmpty then acc
  else { acc with messages := attachButtons acc.messages item.buttons }

/-- Processing of one response item: the four blocks in source order. -/
def processItem (acc : ProcessedResponse) (item : RasaItem) : ProcessedResponse :=
  processItemButtons (processItemImage (processItemCustom (processItemText acc item) item) item) item

/-- The fallback text pushed when the raw response is null or empty
(rasa-service.js line 150). -/
def processResponseFallbackText : String :=
  "I didn\x27t receive a proper response. Please try again."

/-- `processResponse` (rasa-service.js lines 142-211): starts from
`{messages: [], context: {...originalContext}, actions: []}`; a null or empty
raw response yields exactly the fallback text message; otherwise each item is
processed in order. -/
def processResponse (response : Option (List RasaItem)) (originalContext : Obj) :
    ProcessedResponse :=
  let result : ProcessedResponse :=
    { messages := [], context := originalContext, actions := [], dispatched := [] }
  match response with
  | none => { result with messages := [RMessage.text processResponseFallbackText []] }
  | some [] => { result with messages := [RMessage.text processResponseFallbackText []] }
  | some items => items.foldl processItem result

/-- The context keys a parsed custom payload of this item would override. -/
def itemContextKeys (item : RasaItem) : List String :=
  match item.custom with
  | CustomField.parsed c => (c.context.getD []).map (fun p => p.1)
  | _ => []

/-- All context keys overridden by some custom segment of the response. -/
def customContextKeys (items : List RasaItem) : List String :=
  (items.map itemContextKeys).flatten

/-- The result object of `RasaService.sendMessage`: the processed response,
or the fallback object built in the catch block (which carries
`isFallback: true`). -/
structure RasaResponse where
  messages : List RMessage
  context : Obj
  actions : List String
  isFallback : Bool
  deriving DecidableEq, Repr

/-- The fallback text of the `RasaService.sendMessage` catch block
(rasa-service.js line 129). -/
def rasaFallbackText : String :=
  "Sorry, I\x27m having trouble connecting to my brain right now. Please check that the Rasa server is running properly."

/-- `RasaService.sendMessage` (rasa-service.js lines 82-134), from the point
of view of the caller: a successful webhook round trip is processed by
`processResponse`; any error (rejected fetch, non-ok status, bad JSON) is
caught in the function and turned into the fallback response carrying the
original context — no exception escapes. -/
def rasaServiceSendMessage (context : Obj)
    (net : Except String (Option (List RasaItem))) : RasaResponse :=
  match net with
  | Except.ok data =>
      let p := processResponse data context
      { messages := p.messages, context := p.context, actions := p.actions, isFallback := false }
  | Except.error _ =>
      { messages := [RMessage.text rasaFallbackText []]
        context := context
        actions := []
        isFallback := true }

/-! ## Chat UI controllers (`app.js` and the DOM part of `rasa-service.js`) -/

/-- A chat bubble in the `.chat-messages` container. -/
structure ChatMsg where
  sender : String
  text : String
  deriving DecidableEq, Repr

/-- The synchronous prefix of the DOM `sendMessage` (rasa-service.js lines
479-511), up to and including the `fetch`: the state of the chat, the
conversation records saved so far, and whether the network call was made. -/
structure SendOutcome where
  chat : List ChatMsg
  savedConversations : List (String × String)
  networkCalled : Bool
  deriving DecidableEq, Repr

/-- DOM `sendMessage` of rasa-service.js (lines 479-526) before the network
promise resolves: trim the input; an empty trimmed message returns
immediately; otherwise exactly one user bubble is appended
(`addMessageToChat('user', message, timestamp)`), the user message is saved
to the conversations store, and the `/api/rasa_message` fetch is issued. -/
def sendMessagePre (chat : List ChatMsg) (savedConvs : List (String × String))
    (input : String) : SendOutcome :=
  let message := jsTrim input
  if message = "" then
    { chat := chat, savedConversations := savedConvs, networkCalled := false }
  else
    { chat := chat ++ [{ sender := "user", text := message }]
      savedConversations := savedConvs ++ [("user", message)]
      networkCalled := true }

/-- `sendMessage` of app.js (lines 51-92) before the network promise
resolves: same gate on the trimmed input, one user bubble, then the
`/api/message` fetch (this variant does not save to the store). -/
def appSendMessagePre (chat : List ChatMsg) (input : String) : SendOutcome :=
  let message := jsTrim input
  if message = "" then
    { chat := chat, savedConversations := [], networkCalled := false }
  else
    { chat := chat ++ [{ sender := "user", text := message }]
      savedConversations := []
      networkCalled := true }

/-- The parsed body of a `/api/message` response in app.js. -/
structure AppResponse where
  success : Bool
  messages : List (Option String)
  deriving DecidableEq, Repr

/-- The bot bubble added by the app.js catch handler (line 90). -/
def appConnectErrorText : String :=
  "Sorry, I\x27m unable to connect to the server at the moment."

/-- The app.js fallback when the response carries no valid messages
(line 84). -/
def appNoResponseText : String :=
  "I\x27m having trouble understanding. Could you rephrase that?"

/-- The default bot text for a message without text (line 80). -/
def appProcessingText : String := "I\x27m processing your request."

/-- The whole of app.js `sendMessage` (lines 51-92) as a function of the
network outcome: on a rejected fetch the catch handler appends exactly one
fallback bot bubble; on success each returned message becomes a bot bubble,
or the rephrase fallback when none are valid. The function is total: no
exception propagates out of `sendMessage`. -/
def appSendMessage (chat : List ChatMsg) (input : String)
    (net : Except Unit AppResponse) : List ChatMsg :=
  let message := jsTrim input
  if message = "" then chat
  else
    let chat1 := chat ++ [{ sender := "user", text := message }]
    match net with
    | Except.error _ => chat1 ++ [{ sender := "bot", text := appConnectErrorText }]
    | Except.ok data =>
        if data.success && !data.messages.isEmpty then
          chat1 ++ data.messages.map
            (fun t => { sender := "bot", text := jsStrOr t appProcessingText })
        else
          chat1 ++ [{ sender := "bot", text := appNoResponseText }]

/-- The bot bubble added by the DOM `sendMessage` catch handler of
rasa-service.js (line 524). -/
def rasaUIErrorText : String :=
  "Sorry, I encountered network error. Please try again later."

/-- The DOM `sendMessage` of rasa-service.js as a function of the network
outcome, chat part only: a rejected `/api/rasa_message` fetch appends exactly
one fallback bot bubble in the catch handler (lines 520-525). -/
def sendMessageChatAfterError (chat : List ChatMsg) (input : String) : List ChatMsg :=
  (sendMessagePre chat [] input).chat ++ [{ sender := "bot", text := rasaUIErrorText }]

/-! ## Clearing the chat (`rasa-service.js` lines 924-972, `app.js` 200-206) -/

/-- A record of the `conversations` table. The timestamp is embedded as the
numeric value of `new Date(c.timestamp)`, which is what the sort comparator
`new Date(a.timestamp) - new Date(b.timestamp)` compares. -/
structure Conversation where
  id : Nat
  timestamp : Nat
  sender : String
  message : String
  deriving DecidableEq, Repr

/-- The sort comparator of `clearConversationsFromDB` (line 959): ascending
by timestamp. -/
def byTimestamp (a b : Conversation) : Prop := a.timestamp ≤ b.timestamp

instance : DecidableRel byTimestamp := fun a b => Nat.decLe a.timestamp b.timestamp

instance : IsTotal Conversation byTimestamp :=
  ⟨fun a b => Nat.le_total a.timestamp b.timestamp⟩

instance : IsTrans Conversation byTimestamp :=
  ⟨fun _ _ _ hab hbc => Nat.le_trans hab hbc⟩

/-- `clearConversationsFromDB` (rasa-service.js lines 954-972): fetch all
conversations, sort ascending by timestamp, and when more than one record
exists, `bulkDelete` the ids of all but the first of the sorted list. -/
def clearConversationsFromDB (convs : List Conversation) : List Conversation :=
  let sortedConversations := List.insertionSort byTimestamp convs
  if sortedConversations.length > 1 then
    let idsToDelete := (sortedConversations.drop 1).map (fun c => c.id)
    convs.filter (fun c => !(idsToDelete.contains c.id))
  else convs

/-- The observable outcome of `clearChat`. -/
structure ClearOutcome where
  displayed : List ChatMsg
  conversations : List Conversation
  contextCleared : Bool
  pendingBotText : Option String
  deriving DecidableEq, Repr

/-- The confirmation bubble queued (behind a typing-indicator timeout) after
a confirmed clear (rasa-service.js line 946). -/
def chatClearedText : String :=
  "Chat history has been cleared. How else can I help you today?"

/-- `clearChat` of rasa-service.js (lines 924-949): when the confirm dialog
is accepted, every displayed message except the first is removed
(`messages.slice(1).forEach(msg => msg.remove())`), the conversations store
is cleared through `clearConversationsFromDB`, the conversation context is
reset, and a confirmation bubble is queued; when declined, nothing happens.
(`clearChat` of app.js lines 200-206 is the display part alone, without the
confirm dialog.) -/
def clearChat (confirmClear : Bool) (messages : List ChatMsg)
    (convs : List Conversation) : ClearOutcome :=
  if confirmClear then
    { displayed := messages.take 1
      conversations := clearConversationsFromDB convs
      contextCleared := true
      pendingBotText := some chatClearedText }
  else
    { displayed := messages
      conversations := convs
      contextCleared := false
      pendingBotText := none }

/-! ## Concrete sample values used by the witnesses -/

/-- A concrete stored email with id 1. -/
def sampleEmail : Email :=
  { id := 1
    messageId := some "m-1"
    fromAddr := "team@github.com"
    toAddr := "user@example.com"
    subject := "Security alert"
    body := "hello"
    timestamp := "2026-01-01T00:00:00.000Z"
    read := false
    folder := "inbox"
    attachments := []
    has_attachments := false }

/-- A concrete email store holding `sampleEmail`. -/
def sampleStore : EmailStore :=
  { entries := [sampleEmail], nextId := 2 }

/-- Concrete email data re-using the message id of `sampleEmail`. -/
def sampleEmailData : EmailData :=
  { messageId := some "m-1"
    fromAddr := "team@github.com"
    toAddr := "user@example.com"
    subject := "Security alert"
    body := "updated body"
    timestamp := some "2026-01-02T00:00:00.000Z"
    read := true
    folder := "inbox"
    attachments := []
    has_attachments := false }

/-- An MCP email with every field absent. -/
def emptyMCPEmail : MCPEmail :=
  { id := none
    message_id := none
    messageId := none
    fromAddr := none
    toAddr := none
    subject := none
    body := none
    content := none
    date := none
    recipients := none
    read := none
    folder := none
    attachments := none
    has_attachments := none }

/-- A concrete Rasa response item carrying a custom action with a context. -/
def sampleRasaItem : RasaItem :=
  { text := some "Done"
    custom := CustomField.parsed { action := some "check_emails", context := some [("x", "1")] }
    image := none
    buttons := [] }

/-- A concrete conversation context with two keys. -/
def sampleRasaContext : Obj := [("k0", "v0"), ("x", "0")]

/-- A concrete two-message chat: the welcome bubble and one user bubble. -/
def sampleChat : List ChatMsg :=
  [{ sender := "bot", text := "welcome" }, { sender := "user", text := "hi" }]

/-- Two concrete conversation records with distinct ids and timestamps. -/
def sampleConversations : List Conversation :=
  [{ id := 1, timestamp := 10, sender := "bot", message := "welcome" },
   { id := 2, timestamp := 20, sender := "user", message := "hi" }]

/-! ## Theorems -/

/-- After a `put`, looking the record up by its key finds exactly the record
that was put. -/
theorem putSettings_find (v : ImapSettings) (tbl : List ImapSettings) :
    (putSettings v tbl).find? (fun e => e.id == v.id) = some v := by
  unfold putSettings
  by_cases h : tbl.any (fun e => e.id == v.id)
  · simp only [h, if_true]
    induction tbl with
    | nil => simp at h
    | cons a t ih =>
        by_cases ha : a.id = v.id
        · simp [ha]
        · have ht : t.any (fun e => e.id == v.id) = true := by
            simp only [List.any_cons, Bool.or_eq_true, beq_iff_eq] at h
            rcases h with h | h
            · exact absurd h ha
            · simpa using h
          simpa [ha] using ih ht
  · rw [if_neg h, List.find?_append]
    have hnone : tbl.find? (fun e => e.id == v.id) = none := by
      rw [List.find?_eq_none]
      intro x hx
      simp only [List.any_eq_true, beq_iff_eq] at h
      simp only [beq_iff_eq]
      exact fun hxe => h ⟨x, hx, hxe⟩
    simp [hnone]

/-- Claim C6: the IMAP settings record is a singleton keyed by `id = 1`:
`saveImapSettings` stores the settings under id 1, and a subsequent
`getImapSettings` returns exactly the saved settings (the given record with
its `id` field forced to 1), for every prior state of the table. -/
theorem c6_imapSettings_save_get_roundtrip (s : ImapSettings) (tbl : List ImapSettings) :
    getImapSettings (saveImapSettings s tbl) = some { s with id := 1 } := by
  have h := putSettings_find { s with id := 1 } tbl
  simpa [getImapSettings, saveImapSettings] using h

/-- Claim C3: marking an email as read is idempotent. For every email id `i`
and store, applying `markEmailAsRead` twice leaves the store identical to the
state after the first application; the record with id `i` ends with
`read = true` and every other field unchanged; records with a different id
are untouched; and the operation is total (no error) — the store size never
changes. -/
theorem c3_markEmailAsRead_idempotent (i : Nat) (st : EmailStore) (e : Email)
    (he : e ∈ st.entries) (hid : e.id = i) :
    markEmailAsRead i (markEmailAsRead i st) = markEmailAsRead i st ∧
    { e with read := true } ∈ (markEmailAsRead i st).entries ∧
    (∀ e2, e2 ∈ st.entries → e2.id ≠ i → e2 ∈ (markEmailAsRead i st).entries) ∧
    (markEmailAsRead i st).entries.length = st.entries.length := by
  refine ⟨?_, ?_, ?_, ?_⟩
  · unfold markEmailAsRead
    simp only [List.map_map]
    congr 1
    apply List.map_congr_left
    intro a _
    by_cases h : a.id = i <;> simp [h, Function.comp]
  · unfold markEmailAsRead
    exact List.mem_map.mpr ⟨e, he, by simp [hid]⟩
  · intro e2 he2 hne
    unfold markEmailAsRead
    exact List.mem_map.mpr ⟨e2, he2, by simp [hne]⟩
  · unfold markEmailAsRead
    simp

/-- Witness for C3 at a concrete store: the sample store contains an email
with id 1, and marking twice equals marking once, with the marked record
present. -/
theorem c3_markEmailAsRead_idempotent_witness :
    markEmailAsRead 1 (markEmailAsRead 1 sampleStore) = markEmailAsRead 1 sampleStore ∧
    { sampleEmail with read := true } ∈ (markEmailAsRead 1 sampleStore).entries :=
  ⟨(c3_markEmailAsRead_idempotent 1 sampleStore sampleEmail (by decide) (by decide)).1,
   (c3_markEmailAsRead_idempotent 1 sampleStore sampleEmail (by decide) (by decide)).2.1⟩

/-- One `saveEmail` grows the store by at most one record. -/
theorem saveEmail_length_le (now : String) (d : EmailData) (st : EmailStore) :
    (saveEmail now d st).2.entries.length ≤ st.entries.length + 1 := by
  unfold saveEmail
  cases hex : saveEmailExisting d st with
  | some ex => simp
  | none => simp

/-- When a record with the (truthy) message id already exists, `saveEmail`
keeps the store size unchanged. -/
theorem saveEmail_length_of_isSome (now : String) (d : EmailData) (st : EmailStore)
    (h : (saveEmailExisting d st).isSome) :
    (saveEmail now d st).2.entries.length = st.entries.length := by
  unfold saveEmail
  cases hex : saveEmailExisting d st with
  | some ex => simp
  | none => rw [hex] at h; simp at h

/-- A store member with the saved message id makes the `existingEmail`
lookup succeed. -/
theorem saveEmailExisting_isSome_of_mem (d : EmailData) (st : EmailStore)
    (htruthy : truthyMsgId d.messageId = true)
    (h : ∃ e ∈ st.entries, e.messageId = d.messageId) :
    (saveEmailExisting d st).isSome := by
  unfold saveEmailExisting
  rw [if_pos htruthy]
  rw [List.find?_isSome]
  obtain ⟨e, he, heq⟩ := h
  exact ⟨e, he, by simp [heq]⟩

/-- After any `saveEmail` with a truthy message id, the store contains a
record with that message id. -/
theorem saveEmail_mem_messageId (now : String) (d : EmailData) (st : EmailStore)
    (htruthy : truthyMsgId d.messageId = true) :
    ∃ e ∈ (saveEmail now d st).2.entries, e.messageId = d.messageId := by
  obtain ⟨s, hs⟩ : ∃ s, d.messageId = some s := by
    cases hm : d.messageId with
    | none => rw [hm] at htruthy; simp [truthyMsgId] at htruthy
    | some s => exact ⟨s, rfl⟩
  unfold saveEmail
  cases hex : saveEmailExisting d st with
  | some ex =>
      have hmem : ex ∈ st.entries := by
        unfold saveEmailExisting at hex
        rw [if_pos htruthy] at hex
        exact List.mem_of_find?_eq_some hex
      refine ⟨mergeEmail ex d, ?_, ?_⟩
      · exact List.mem_map.mpr ⟨ex, hmem, by simp⟩
      · simp [mergeEmail, hs]
  | none =>
      refine ⟨_, List.mem_append_right _ (List.mem_singleton.mpr rfl), rfl⟩

/-- Processing a mail-check response of N emails grows the store by at most
N records. -/
theorem processRecentEmails_length_le (parseIsoDate : String → Option String)
    (now currentFolder : String) (emails : List MCPEmail) (st : EmailStore) :
    (processRecentEmails parseIsoDate now currentFolder emails st).entries.length ≤
      st.entries.length + emails.length := by
  induction emails generalizing st with
  | nil => simp [processRecentEmails]
  | cons m rest ih =>
      have hstep :
          (saveAndNotifyEmail now (formatMCPEmail parseIsoDate now currentFolder m) st).2.entries.length ≤
            st.entries.length + 1 := by
        unfold saveAndNotifyEmail
        exact saveEmail_length_le now _ st
      calc (processRecentEmails parseIsoDate now currentFolder (m :: rest) st).entries.length
          = (processRecentEmails parseIsoDate now currentFolder rest
              (saveAndNotifyEmail now (formatMCPEmail parseIsoDate now currentFolder m) st).2).entries.length := by
            simp [processRecentEmails]
        _ ≤ (saveAndNotifyEmail now (formatMCPEmail parseIsoDate now currentFolder m) st).2.entries.length
              + rest.length := ih _
        _ ≤ st.entries.length + 1 + rest.length := by omega
        _ = st.entries.length + (m :: rest).length := by simp; omega

/-- Claim C1: `saveEmail` deduplicates by message id. When a record with the
same (truthy) message id already exists, the save returns the existing id,
replaces that record in place by the merged record (which keeps the id) and
leaves every other record and the store size untouched. Moreover, processing
a mail-check response of N emails creates at most N new store records, and
re-saving the same truthy message id never duplicates it. -/
theorem c1_saveEmail_dedup (now : String) (d : EmailData) (st : EmailStore) (ex : Email)
    (htruthy : truthyMsgId d.messageId = true)
    (hfind : st.entries.find? (fun e => e.messageId == d.messageId) = some ex) :
    (saveEmail now d st).1 = ex.id ∧
    (mergeEmail ex d).id = ex.id ∧
    mergeEmail ex d ∈ (saveEmail now d st).2.entries ∧
    (saveEmail now d st).2.entries.length = st.entries.length ∧
    (∀ e2, e2 ∈ st.entries → e2.id ≠ ex.id → e2 ∈ (saveEmail now d st).2.entries) ∧
    (∀ parseIsoDate currentFolder emails st2,
        (processRecentEmails parseIsoDate now currentFolder emails st2).entries.length ≤
          st2.entries.length + emails.length) ∧
    (∀ d2 st2, truthyMsgId d2.messageId = true →
        (saveEmail now d2 (saveEmail now d2 st2).2).2.entries.length =
          (saveEmail now d2 st2).2.entries.length) := by
  have hex : saveEmailExisting d st = some ex := by
    unfold saveEmailExisting
    rw [if_pos htruthy]
    exact hfind
  have hmem : ex ∈ st.entries := List.mem_of_find?_eq_some hfind
  refine ⟨?_, rfl, ?_, ?_, ?_, ?_, ?_⟩
  · unfold saveEmail
    rw [hex]
  · unfold saveEmail
    rw [hex]
    exact List.mem_map.mpr ⟨ex, hmem, by simp⟩
  · unfold saveEmail
    rw [hex]
    simp
  · intro e2 he2 hne
    unfold saveEmail
    rw [hex]
    exact List.mem_map.mpr ⟨e2, he2, by simp [hne]⟩
  · intro parseIsoDate currentFolder emails st2
    exact processRecentEmails_length_le parseIsoDate now currentFolder emails st2
  · intro d2 st2 ht2
    exact saveEmail_length_of_isSome now d2 _
      (saveEmailExisting_isSome_of_mem d2 _ ht2 (saveEmail_mem_messageId now d2 st2 ht2))

/-- Witness for C1 at a concrete store: re-saving message id `m-1` into the
sample store (which already holds it under id 1) returns id 1 and keeps the
store at one record. -/
theorem c1_saveEmail_dedup_witness :
    (saveEmail "2026-01-02T00:00:00.000Z" sampleEmailData sampleStore).1 = 1 ∧
    (saveEmail "2026-01-02T00:00:00.000Z" sampleEmailData sampleStore).2.entries.length = 1 :=
  ⟨(c1_saveEmail_dedup "2026-01-02T00:00:00.000Z" sampleEmailData sampleStore sampleEmail
      (by decide) (by decide)).1,
   (c1_saveEmail_dedup "2026-01-02T00:00:00.000Z" sampleEmailData sampleStore sampleEmail
      (by decide) (by decide)).2.2.2.1⟩

/-- Claim C7 (code bug): in the effective `EmailService` (the second class
definition in email-service.js, the one `window.emailService` ends up
holding), `start()` registers the fixed-interval timer, but the interval
callback performs nothing — the `this.checkEmails()` call inside it is
commented out — so a timer firing does NOT invoke `checkEmails`. The first
class definition and the legacy part_004 service do call `checkEmails` on
each tick, which is what the claim (and the code's own comments) describe. -/
theorem c7_effective_poller_tick_is_noop :
    (startService mcpEffectiveTickOps initialServiceState emptyTimerWorld).1.checkInterval = some 0 ∧
    timerTickOps (startService mcpEffectiveTickOps initialServiceState emptyTimerWorld).2 0 = some [] ∧
    timerTickOps (startService mcpFirstDefTickOps initialServiceState emptyTimerWorld).2 0 =
      some [PollerOp.checkEmails] ∧
    timerTickOps (startService legacyTickOps initialServiceState emptyTimerWorld).2 0 =
      some [PollerOp.checkEmails] ∧
    mcpEffectiveTickOps ≠ [PollerOp.checkEmails] := by
  decide

/-- Claim C10: the email service keeps at most one active polling timer.
`start()` on a running service is a no-op (same state, same timer world, so
no second timer); `stop()` on a stopped service is a no-op; after `start()`
the service is running; after `stop()` it is not; and any `start()` adds at
most one timer. -/
theorem c10_start_stop_lifecycle (tickOps : List PollerOp)
    (s : ServiceState) (w : TimerWorld) (hrun : s.isRunning = true)
    (s2 : ServiceState) (w2 : TimerWorld) (hstop : s2.isRunning = false) :
    startService tickOps s w = (s, w) ∧
    stopService s2 w2 = (s2, w2) ∧
    (∀ s3 w3, (startService tickOps s3 w3).1.isRunning = true) ∧
    (∀ s3 w3, (stopService s3 w3).1.isRunning = false) ∧
    (∀ s3 w3, (startService tickOps s3 w3).2.activeTimers.length ≤
        w3.activeTimers.length + 1) := by
  refine ⟨?_, ?_, ?_, ?_, ?_⟩
  · simp [startService, hrun]
  · simp [stopService, hstop]
  · intro s3 w3
    by_cases h : s3.isRunning <;> simp [startService, h]
  · intro s3 w3
    by_cases h : s3.isRunning <;> simp [stopService, h]
  · intro s3 w3
    by_cases h : s3.isRunning <;> simp [startService, setIntervalOp, h]

/-- Witness for C10 at concrete states: start on a running service and stop
on the fresh (stopped) service are both no-ops. -/
theorem c10_start_stop_lifecycle_witness :
    startService [] { isRunning := true, checkInterval := some 0 } emptyTimerWorld =
      ({ isRunning := true, checkInterval := some 0 }, emptyTimerWorld) ∧
    stopService initialServiceState emptyTimerWorld =
      (initialServiceState, emptyTimerWorld) :=
  ⟨(c10_start_stop_lifecycle [] { isRunning := true, checkInterval := some 0 }
      emptyTimerWorld rfl initialServiceState emptyTimerWorld rfl).1,
   (c10_start_stop_lifecycle [] { isRunning := true, checkInterval := some 0 }
      emptyTimerWorld rfl initialServiceState emptyTimerWorld rfl).2.1⟩

/-- Claim C2: for non-empty trimmed input, both `sendMessage` variants append
exactly one user bubble before the network call resolves, and the network
call is made; for empty trimmed input, nothing is appended and no network
call is made. -/
theorem c2_sendMessage_one_user_bubble (chat : List ChatMsg)
    (savedConvs : List (String × String)) (input : String) (h : jsTrim input ≠ "") :
    (sendMessagePre chat savedConvs input).chat =
      chat ++ [{ sender := "user", text := jsTrim input }] ∧
    (sendMessagePre chat savedConvs input).networkCalled = true ∧
    (appSendMessagePre chat input).chat =
      chat ++ [{ sender := "user", text := jsTrim input }] ∧
    (appSendMessagePre chat input).networkCalled = true ∧
    (∀ chat2 convs2 input2, jsTrim input2 = "" →
        (sendMessagePre chat2 convs2 input2).chat = chat2 ∧
        (sendMessagePre chat2 convs2 input2).networkCalled = false ∧
        (appSendMessagePre chat2 input2).chat = chat2 ∧
        (appSendMessagePre chat2 input2).networkCalled = false) := by
  refine ⟨?_, ?_, ?_, ?_, ?_⟩
  · simp [sendMessagePre, h]
  · simp [sendMessagePre, h]
  · simp [appSendMessagePre, h]
  · simp [appSendMessagePre, h]
  · intro chat2 convs2 input2 h2
    refine ⟨?_, ?_, ?_, ?_⟩ <;> simp [sendMessagePre, appSendMessagePre, h2]

/-- Witness for C2 at concrete input: sending "hi " appends exactly the user
bubble "hi" and issues the network call. -/
theorem c2_sendMessage_one_user_bubble_witness :
    (sendMessagePre sampleChat [] "hi ").chat =
      sampleChat ++ [{ sender := "user", text := jsTrim "hi " }] ∧
    (sendMessagePre sampleChat [] "hi ").networkCalled = true :=
  ⟨(c2_sendMessage_one_user_bubble sampleChat [] "hi " (by decide)).1,
   (c2_sendMessage_one_user_bubble sampleChat [] "hi " (by decide)).2.1⟩

/-- Claim C5: sending while the backend is unreachable does not propagate an
exception (the handlers are total functions of the error) and adds exactly
one fallback bot bubble: the app.js catch handler appends its connection
error bubble, the rasa-service.js DOM catch handler appends its network
error bubble, and `RasaService.sendMessage` catches the error internally and
returns the fallback response object with the original context. -/
theorem c5_unreachable_backend_fallback (chat : List ChatMsg) (input : String)
    (h : jsTrim input ≠ "") (ctx : Obj) (err : String) :
    appSendMessage chat input (Except.error ()) =
      chat ++ [{ sender := "user", text := jsTrim input },
               { sender := "bot", text := appConnectErrorText }] ∧
    sendMessageChatAfterError chat input =
      chat ++ [{ sender := "user", text := jsTrim input },
               { sender := "bot", text := rasaUIErrorText }] ∧
    (rasaServiceSendMessage ctx (Except.error err)).messages =
      [RMessage.text rasaFallbackText []] ∧
    (rasaServiceSendMessage ctx (Except.error err)).context = ctx ∧
    (rasaServiceSendMessage ctx (Except.error err)).isFallback = true := by
  refine ⟨?_, ?_, rfl, rfl, rfl⟩
  · simp [appSendMessage, h]
  · simp [sendMessageChatAfterError, sendMessagePre, h]

/-- Witness for C5 at concrete input: a rejected network call yields the
user bubble plus exactly one fallback bot bubble. -/
theorem c5_unreachable_backend_fallback_witness :
    appSendMessage [] "hello" (Except.error ()) =
      [{ sender := "user", text := jsTrim "hello" },
       { sender := "bot", text := appConnectErrorText }] ∧
    (rasaServiceSendMessage [("k", "v")] (Except.error "boom")).isFallback = true :=
  ⟨(c5_unreachable_backend_fallback [] "hello" (by decide) [("k", "v")] "boom").1,
   (c5_unreachable_backend_fallback [] "hello" (by decide) [("k", "v")] "boom").2.2.2.2⟩

/-- `jsStrOr` never returns the empty string when its default is
non-empty. -/
theorem jsStrOr_ne_empty (o : Option String) (d : String) (hd : d ≠ "") :
    jsStrOr o d ≠ "" := by
  cases o with
  | none => simpa [jsStrOr] using hd
  | some s =>
      by_cases hs : s = "" <;> simp [jsStrOr, hs, hd]

/-- Appending to the `msg_` prefix never yields the empty string. -/
theorem msgPrefix_append_ne_empty (now : String) : ("msg_" ++ now) ≠ "" := by
  intro hc
  have hdata := congrArg String.data hc
  simp [String.data_append] at hdata

/-- Claim C9: `formatMCPEmail` is total with defined defaults: a missing or
empty `from` becomes `unknown@example.com`, a missing or empty `subject`
becomes `(No subject)`, and for every input the attachments are the given
array or `[]`, `read` is the boolean `!!read`, and the message id is a
non-empty string (so every field of the returned record is defined). -/
theorem c9_formatMCPEmail_total_defaults
    (parseIsoDate : String → Option String) (now currentFolder : String) (m : MCPEmail)
    (hf : m.fromAddr = none ∨ m.fromAddr = some "")
    (hs : m.subject = none ∨ m.subject = some "") :
    (formatMCPEmail parseIsoDate now currentFolder m).fromAddr = "unknown@example.com" ∧
    (formatMCPEmail parseIsoDate now currentFolder m).subject = "(No subject)" ∧
    (∀ m2, (formatMCPEmail parseIsoDate now currentFolder m2).attachments =
        m2.attachments.getD []) ∧
    (∀ m2, (formatMCPEmail parseIsoDate now currentFolder m2).read = m2.read.getD false) ∧
    (∀ m2, (formatMCPEmail parseIsoDate now currentFolder m2).messageId ≠ "") := by
  refine ⟨?_, ?_, fun m2 => rfl, fun m2 => rfl, ?_⟩
  · rcases hf with hf | hf <;> simp [formatMCPEmail, jsStrOr, hf]
  · rcases hs with hs | hs <;> simp [formatMCPEmail, jsStrOr, hs]
  · intro m2
    exact jsStrOr_ne_empty _ _
      (jsStrOr_ne_empty _ _ (jsStrOr_ne_empty _ _ (msgPrefix_append_ne_empty now)))

/-- Witness for C9 on the all-fields-missing input: the defaults appear. -/
theorem c9_formatMCPEmail_total_defaults_witness :
    (formatMCPEmail (fun _ => none) "2026-01-01" "inbox" emptyMCPEmail).fromAddr =
      "unknown@example.com" ∧
    (formatMCPEmail (fun _ => none) "2026-01-01" "inbox" emptyMCPEmail).subject =
      "(No subject)" :=
  ⟨(c9_formatMCPEmail_total_defaults (fun _ => none) "2026-01-01" "inbox" emptyMCPEmail
      (Or.inl rfl) (Or.inl rfl)).1,
   (c9_formatMCPEmail_total_defaults (fun _ => none) "2026-01-01" "inbox" emptyMCPEmail
      (Or.inl rfl) (Or.inl rfl)).2.1⟩

/-- Looking up a key that none of the first object's pairs carries falls
through to the second object. -/
theorem lookup_append_of_not_mem_keys (cctx rest : Obj) (k : String)
    (hk : k ∉ cctx.map (fun p => p.1)) :
    List.lookup k (cctx ++ rest) = List.lookup k rest := by
  induction cctx with
  | nil => simp
  | cons p t ih =>
      simp only [List.map_cons, List.mem_cons] at hk
      push_neg at hk
      obtain ⟨hk1, hk2⟩ := hk
      obtain ⟨a, b⟩ := p
      simpa [List.lookup, beq_false_of_ne hk1] using ih hk2

/-- The text block leaves the context untouched. -/
theorem processItemText_context (acc : ProcessedResponse) (item : RasaItem) :
    (processItemText acc item).context = acc.context := by
  unfold processItemText
  cases item.text with
  | none => rfl
  | some t => by_cases ht : t = "" <;> simp [ht]

/-- The image block leaves the context untouched. -/
theorem processItemImage_context (acc : ProcessedResponse) (item : RasaItem) :
    (processItemImage acc item).context = acc.context := by
  unfold processItemImage
  cases item.image with
  | none => rfl
  | some u => by_cases hu : u = "" <;> simp [hu]

/-- The buttons block leaves the context untouched. -/
theorem processItemButtons_context (acc : ProcessedResponse) (item : RasaItem) :
    (processItemButtons acc item).context = acc.context := by
  unfold processItemButtons
  by_cases hb : item.buttons.isEmpty <;> simp [hb]

/-- The custom block merges the payload context over the accumulated one
(and otherwise leaves the context untouched). -/
theorem processItemCustom_context (acc : ProcessedResponse) (item : RasaItem) :
    (processItemCustom acc item).context =
      (match item.custom with
       | CustomField.parsed c =>
           match c.context with
           | some cctx => objMerge acc.context cctx
           | none => acc.context
       | _ => acc.context) := by
  unfold processItemCustom
  cases item.custom with
  | absent => rfl
  | malformed => rfl
  | parsed c =>
      obtain ⟨cact, cctx⟩ := c
      cases cact with
      | none => cases cctx <;> rfl
      | some a =>
          by_cases ha : a = ""
          · cases cctx <;> simp [ha]
          · cases cctx <;> simp [ha]

/-- Processing one item preserves the binding of every key its custom
payload does not override. -/
theorem processItem_lookup (acc : ProcessedResponse) (item : RasaItem) (k : String)
    (hk : k ∉ itemContextKeys item) :
    List.lookup k (processItem acc item).context = List.lookup k acc.context := by
  unfold processItem
  rw [processItemButtons_context, processItemImage_context, processItemCustom_context,
      processItemText_context]
  unfold itemContextKeys at hk
  cases hc : item.custom with
  | absent => rfl
  | malformed => rfl
  | parsed c =>
      rw [hc] at hk
      obtain ⟨cact, cctx2⟩ := c
      cases cctx2 with
      | none => rfl
      | some cctx =>
          refine lookup_append_of_not_mem_keys cctx acc.context k ?_
          simpa using hk

/-- Folding the items preserves the binding of every key no custom payload
overrides. -/
theorem processItems_lookup (items : List RasaItem) (acc : ProcessedResponse) (k : String)
    (hk : k ∉ customContextKeys items) :
    List.lookup k (items.foldl processItem acc).context = List.lookup k acc.context := by
  induction items generalizing acc with
  | nil => rfl
  | cons i rest ih =>
      have hk2 : k ∉ itemContextKeys i ∧ k ∉ customContextKeys rest := by
        unfold customContextKeys at hk ⊢
        simp only [List.map_cons, List.flatten_cons, List.mem_append] at hk
        push_neg at hk
        exact hk
      calc List.lookup k ((i :: rest).foldl processItem acc).context
          = List.lookup k (rest.foldl processItem (processItem acc i)).context := by
            rw [List.foldl_cons]
        _ = List.lookup k (processItem acc i).context := ih (processItem acc i) hk2.2
        _ = List.lookup k acc.context := processItem_lookup acc i k hk2.1

/-- Claim C8: `processResponse` always returns an object with `messages`,
`actions` and `context`; the returned context binds every key of the original
context the same way unless some custom segment's context overrides that key;
and a null or empty raw response yields exactly one fallback text message,
the original context and no actions. -/
theorem c8_processResponse_frame (resp : Option (List RasaItem)) (orig : Obj) (k : String)
    (hk : k ∉ customContextKeys (resp.getD [])) :
    List.lookup k (processResponse resp orig).context = List.lookup k orig ∧
    (∀ orig2 : Obj,
        processResponse none orig2 =
          { messages := [RMessage.text processResponseFallbackText []]
            context := orig2, actions := [], dispatched := [] } ∧
        processResponse (some []) orig2 =
          { messages := [RMessage.text processResponseFallbackText []]
            context := orig2, actions := [], dispatched := [] }) := by
  constructor
  · cases resp with
    | none => rfl
    | some items =>
        cases items with
        | nil => rfl
        | cons i rest =>
            simp only [Option.getD] at hk
            exact processItems_lookup (i :: rest)
              { messages := [], context := orig, actions := [], dispatched := [] } k hk
  · intro orig2
    exact ⟨rfl, rfl⟩

/-- Witness for C8 at a concrete response: the key `k0`, not overridden by
the custom segment (which overrides `x`), keeps its original binding; a null
response gives exactly the fallback message. -/
theorem c8_processResponse_frame_witness :
    List.lookup "k0" (processResponse (some [sampleRasaItem]) sampleRasaContext).context =
      List.lookup "k0" sampleRasaContext ∧
    processResponse none sampleRasaContext =
      { messages := [RMessage.text processResponseFallbackText []]
        context := sampleRasaContext, actions := [], dispatched := [] } :=
  ⟨(c8_processResponse_frame (some [sampleRasaItem]) sampleRasaContext "k0" (by decide)).1,
   ((c8_processResponse_frame (some [sampleRasaItem]) sampleRasaContext "k0"
      (by decide)).2 sampleRasaContext).1⟩

/-- Filtering a list by a predicate that holds exactly at an element
occurring once yields that singleton. -/
theorem filter_eq_singleton {α : Type} [DecidableEq α] {p : α → Bool} {l : List α} {a : α}
    (ha : a ∈ l) (hcount : l.count a = 1) (hp : ∀ x ∈ l, (p x = true ↔ x = a)) :
    l.filter p = [a] := by
  induction l with
  | nil => cases ha
  | cons b t ih =>
      by_cases hb : b = a
      · subst hb
        have hpb : p b = true := (hp b (List.mem_cons_self b t)).mpr rfl
        have hcount0 : t.count b = 0 := by
          rw [List.count_cons] at hcount
          simp only [beq_self_eq_true, if_true] at hcount
          omega
        have hbt : b ∉ t := List.count_eq_zero.mp hcount0
        have hfil : t.filter p = [] := by
          rw [List.filter_eq_nil_iff]
          intro x hx hpx
          have hxa := (hp x (List.mem_cons_of_mem b hx)).mp hpx
          exact hbt (hxa ▸ hx)
        simp [List.filter_cons, hpb, hfil]
      · have hpb : p b = false := by
          by_cases hpb2 : p b = true
          · exact absurd ((hp b (List.mem_cons_self b t)).mp hpb2) hb
          · exact eq_false_of_ne_true hpb2
        have ha2 : a ∈ t := by
          rcases List.mem_cons.mp ha with h | h
          · exact absurd h.symm hb
          · exact h
        have hcount2 : t.count a = 1 := by
          rw [List.count_cons, if_neg (by simp [hb])] at hcount
          omega
        rw [List.filter_cons, if_neg (by simp [hpb])]
        exact ih ha2 hcount2 (fun x hx => hp x (List.mem_cons_of_mem b hx))

/-- The core of claim C4: after `clearConversationsFromDB`, exactly one
record remains, it is one of the original records, and its timestamp is
minimal among all original records. -/
theorem clearConversationsFromDB_keeps_earliest (convs : List Conversation)
    (hne : convs ≠ []) (hnodup : (convs.map (fun c => c.id)).Nodup) :
    ∃ keep, clearConversationsFromDB convs = [keep] ∧ keep ∈ convs ∧
      ∀ c2 ∈ convs, keep.timestamp ≤ c2.timestamp := by
  have hperm : List.Perm (List.insertionSort byTimestamp convs) convs :=
    List.perm_insertionSort byTimestamp convs
  have hsorted : List.Sorted byTimestamp (List.insertionSort byTimestamp convs) :=
    List.sorted_insertionSort byTimestamp convs
  obtain ⟨h, t, hst⟩ : ∃ h t, List.insertionSort byTimestamp convs = h :: t := by
    cases hs : List.insertionSort byTimestamp convs with
    | nil =>
        rw [hs] at hperm
        exact absurd (List.Perm.eq_nil hperm.symm) hne
    | cons h t => exact ⟨h, t, rfl⟩
  rw [hst] at hperm hsorted
  have hhmem : h ∈ convs := hperm.mem_iff.mp (List.mem_cons_self h t)
  have hmin : ∀ c2 ∈ convs, h.timestamp ≤ c2.timestamp := by
    intro c2 hc2
    rcases List.mem_cons.mp (hperm.mem_iff.mpr hc2) with h1 | h1
    · rw [h1]
    · exact (List.sorted_cons.mp hsorted).1 c2 h1
  refine ⟨h, ?_, hhmem, hmin⟩
  unfold clearConversationsFromDB
  rw [hst]
  cases t with
  | nil =>
      rw [if_neg (by simp)]
      exact (List.singleton_perm.mp hperm).symm
  | cons t0 trest =>
      rw [if_pos (by simp)]
      have hnodupconvs : convs.Nodup := List.Nodup.of_map _ hnodup
      have hcount : convs.count h = 1 := List.count_eq_one_of_mem hnodupconvs hhmem
      have hnodupsorted : ((h :: t0 :: trest).map (fun c => c.id)).Nodup :=
        (List.Perm.nodup_iff (hperm.map (fun c => c.id))).mpr hnodup
      have hhid : h.id ∉ (t0 :: trest).map (fun c => c.id) :=
        (List.nodup_cons.mp hnodupsorted).1
      apply filter_eq_singleton hhmem hcount
      intro x hx
      constructor
      · intro hpx
        by_contra hxh
        have hxt : x ∈ t0 :: trest := by
          rcases List.mem_cons.mp (hperm.mem_iff.mpr hx) with h1 | h1
          · exact absurd h1 hxh
          · exact h1
        have hxid : x.id ∈ (t0 :: trest).map (fun c => c.id) :=
          List.mem_map_of_mem _ hxt
        simp only [List.drop_succ_cons, List.drop_zero] at hpx
        simp at hpx
        rcases List.mem_map.mp hxid with ⟨x1, hx1mem, hx1id⟩
        rcases List.mem_cons.mp hx1mem with h2 | h2
        · subst h2
          exact hpx.1 hx1id.symm
        · exact hpx.2 x1 h2 hx1id
      · intro hxe
        subst hxe
        simp only [List.drop_succ_cons, List.drop_zero]
        simp
        constructor
        · intro heq
          exact hhid (by
            rw [heq]
            exact List.mem_map_of_mem _ (List.mem_cons_self t0 trest))
        · intro x1 hx1 heq
          exact hhid (List.mem_map.mpr ⟨x1, List.mem_cons_of_mem t0 hx1, heq⟩)

/-- Claim C4: a confirmed clear removes every displayed message except the
first, and deletes every conversation record except one record of minimal
timestamp (the earliest-by-timestamp record) — assuming, as the Dexie
auto-increment key guarantees, that the record ids are distinct. A declined
clear changes nothing. -/
theorem c4_clearChat_keeps_first (messages : List ChatMsg) (convs : List Conversation)
    (hne : convs ≠ []) (hnodup : (convs.map (fun c => c.id)).Nodup) :
    (clearChat true messages convs).displayed = messages.take 1 ∧
    (clearChat true messages convs).conversations.length = 1 ∧
    (∀ c ∈ (clearChat true messages convs).conversations,
        c ∈ convs ∧ ∀ c2 ∈ convs, c.timestamp ≤ c2.timestamp) ∧
    (∀ m2 c2, clearChat false m2 c2 =
        { displayed := m2, conversations := c2, contextCleared := false,
          pendingBotText := none }) := by
  obtain ⟨keep, hkeq, hkmem, hkmin⟩ :=
    clearConversationsFromDB_keeps_earliest convs hne hnodup
  have hconv : (clearChat true messages convs).conversations = [keep] := by
    simpa [clearChat] using hkeq
  refine ⟨by simp [clearChat], ?_, ?_, fun m2 c2 => by simp [clearChat]⟩
  · rw [hconv]
    rfl
  · intro c hc
    rw [hconv] at hc
    rcases List.mem_singleton.mp hc with rfl
    exact ⟨hkmem, hkmin⟩

/-- Witness for C4 at concrete data: two displayed messages, two conversation
records — after the confirmed clear only the first message and one
conversation remain. -/
theorem c4_clearChat_keeps_first_witness :
    (clearChat true sampleChat sampleConversations).displayed = sampleChat.take 1 ∧
    (clearChat true sampleChat sampleConversations).conversations.length = 1 :=
  ⟨(c4_clearChat_keeps_first sampleChat sampleConversations (by decide) (by decide)).1,
   (c4_clearChat_keeps_first sampleChat sampleConversations (by decide) (by decide)).2.1⟩

end MailoBot
